import Mathlib

/-
Verification of the argument-sanitization and bounded-execution pipeline of
the video compression server.

The definitions below are a shallow embedding of the Python source:
  - src/app/config.py            (Settings)
  - src/app/utils/validators.py  (FFmpegValidator)
  - src/app/utils/exceptions.py  (exception classes)
  - src/app/services/ffmpeg_service.py (FFmpegService)
  - src/app/main.py              (compress_video endpoint, cleanup)

Strings are modelled as lists of characters (`Token`), so that Python's
substring test (`in`), `str.join`, `str.startswith` and the anchored
regular expressions of `_is_safe_value` become ordinary recursive
functions on lists.
-/

namespace VideoCompression

/-- A Python string, modelled as its list of characters. -/
abbrev Token := List Char

/-! ## src/app/config.py -/

/-- Settings.FFMPEG_ALLOWED_OPTIONS (src/app/config.py lines 16-20). -/
def FFMPEG_ALLOWED_OPTIONS : List Token :=
  ["-c:v", "-vcodec", "-c:a", "-acodec",
   "-b:v", "-b:a", "-crf", "-s", "-r", "-vf",
   "-preset", "-tune", "-profile:v", "-f"].map String.data

/-- Settings.FFMPEG_FORBIDDEN_PATTERNS (src/app/config.py lines 22-25). -/
def FFMPEG_FORBIDDEN_PATTERNS : List Token :=
  ["-i", "/dev/", "file://", "http://", "https://",
   "exec", "system", "pipe", "$(", "`"].map String.data

/-- Settings.MAX_PROCESSING_TIME (src/app/config.py line 13): 60 seconds. -/
def MAX_PROCESSING_TIME : Nat := 60

/-- Settings.TEMP_DIR (src/app/config.py). -/
def TEMP_DIR : Token := "/tmp".data

/-- The ffprobe timeout hard-coded in FFmpegService._get_video_info
(src/app/services/ffmpeg_service.py line 142): 10 seconds. -/
def PROBE_TIMEOUT : Nat := 10

/-! ## Python string primitives -/

/-- Python's substring test `p in s` on strings: `p` occurs contiguously in
`s` (the empty string occurs in every string). -/
def hasSubstr (p : Token) : Token → Bool
  | [] => p.isEmpty
  | c :: rest => p.isPrefixOf (c :: rest) || hasSubstr p rest

/-- Python's `' '.join(tokens)` (src/app/utils/validators.py line 68). -/
def joinTokens : List Token → Token
  | [] => []
  | [t] => t
  | t :: ts => t ++ ' ' :: joinTokens ts

/-- Python's `arg.startswith('-')` (src/app/utils/validators.py line 79). -/
def startsWithDash : Token → Bool
  | '-' :: _ => true
  | _ => false

/-! ## src/app/utils/validators.py : FFmpegValidator -/

/-- The `dangerous_chars` list of FFmpegValidator.validate_options
(src/app/utils/validators.py line 86). -/
def dangerous_chars : List Char := ['/', '\\', '|', '&', ';', '`', '$', '(', ')']

/-- The regex `^\d+$` of `_is_safe_value`: a non-empty all-digit string. -/
def natDigits (l : Token) : Bool := !l.isEmpty && l.all (fun c => c.isDigit)

/-- The codec-name regexes `^libx264$`, `^libx265$`, `^libvpx$`, `^aac$`. -/
def CODEC_NAMES : List Token := ["libx264", "libx265", "libvpx", "aac"].map String.data

/-- The preset-name regex of `_is_safe_value`. -/
def PRESET_NAMES : List Token :=
  ["ultrafast", "superfast", "veryfast", "faster", "fast",
   "medium", "slow", "slower", "veryslow"].map String.data

/-- The anchored regex `^\d+x\d+$` of `_is_safe_value` (since a digit run
followed by the non-digit `x` is matched greedily, the regex is equivalent
to this take/drop decomposition). -/
def resolutionPattern (l : Token) : Bool :=
  match l.dropWhile (fun c => c.isDigit) with
  | x :: d2 => (x == 'x') && !(l.takeWhile (fun c => c.isDigit)).isEmpty && natDigits d2
  | _ => false

/-- The anchored regex `^scale=\d+:\d+$` of `_is_safe_value`: the literal
prefix "scale=", then a non-empty digit run, ':', and a non-empty digit
run to the end. -/
def scalePattern (l : Token) : Bool :=
  "scale=".data.isPrefixOf l &&
    (match (l.drop 6).dropWhile (fun c => c.isDigit) with
     | x :: d2 =>
       (x == ':') && !((l.drop 6).takeWhile (fun c => c.isDigit)).isEmpty && natDigits d2
     | _ => false)

/-- FFmpegValidator._is_safe_value (src/app/utils/validators.py lines 95-107). -/
def is_safe_value (v : Token) : Bool :=
  natDigits v || CODEC_NAMES.contains v || PRESET_NAMES.contains v ||
    resolutionPattern v || scalePattern v

/-- The acceptance message for an empty list (src/app/utils/validators.py
line 65). -/
def noOptionsMsg : Token := "No options provided".data

/-- The acceptance message of a passing list (line 93). -/
def validMsg : Token := "Valid options".data

/-- The rejection message of the forbidden-pattern scan (line 71). -/
def forbiddenMsg (p : Token) : Token := "Forbidden pattern detected: ".data ++ p

/-- The rejection message for a flag outside the allowlist (line 81). -/
def optionNotAllowedMsg (t : Token) : Token := "Option not allowed: ".data ++ t

/-- The rejection message for an unsafe value (line 89). -/
def dangerousValueMsg (t : Token) : Token := "Potentially dangerous value: ".data ++ t

/-- The first forbidden pattern (in list order) occurring in `s`
(the `for forbidden in ...` loop, src/app/utils/validators.py lines 69-71). -/
def findForbidden (s : Token) : List Token → Option Token
  | [] => none
  | p :: ps => if hasSubstr p s then some p else findForbidden s ps

/-- The per-token `while` loop of validate_options
(src/app/utils/validators.py lines 74-93): returns at the first failing
token, otherwise `(true, "Valid options")`. -/
def checkTokens : List Token → Bool × Token
  | [] => (true, validMsg)
  | t :: ts =>
    if startsWithDash t then
      if FFMPEG_ALLOWED_OPTIONS.contains t then checkTokens ts
      else (false, optionNotAllowedMsg t)
    else
      if dangerous_chars.any (fun c => t.contains c) then
        if is_safe_value t then checkTokens ts
        else (false, dangerousValueMsg t)
      else checkTokens ts

/-- FFmpegValidator.validate_options (src/app/utils/validators.py
lines 62-93). -/
def validate_options (args : List Token) : Bool × Token :=
  if args.isEmpty then (true, noOptionsMsg)
  else
    match findForbidden (joinTokens args) FFMPEG_FORBIDDEN_PATTERNS with
    | some p => (false, forbiddenMsg p)
    | none => checkTokens args

/-- The pass/fail verdict of a single token of the `while` loop: a flag must
be allowlisted, a value containing a dangerous character must be safe. -/
def tokenOk (t : Token) : Bool :=
  if startsWithDash t then FFMPEG_ALLOWED_OPTIONS.contains t
  else !(dangerous_chars.any (fun c => t.contains c)) || is_safe_value t

/-! ## src/app/utils/exceptions.py

Each exception class carries a message and the `error_code` string that
`main.compress_video` uses to pick the caller-visible HTTP status. -/

/-- The exception classes of src/app/utils/exceptions.py, as a closed sum.
`ffmpegError` additionally carries the optional `returncode` field. -/
inductive VcError
  | ffmpegError (message : Token) (returncode : Option Int)
  | processingTimeout (timeout : Nat)
  | fileValidation (message : Token)
  | storageError (message : Token)
  | invalidOptions (message : Token)
deriving DecidableEq

/-- The `error_code` attribute set by each exception's constructor. -/
def error_code : VcError → Token
  | .ffmpegError _ _ => "FFMPEG_ERROR".data
  | .processingTimeout _ => "PROCESSING_TIMEOUT".data
  | .fileValidation _ => "FILE_VALIDATION_ERROR".data
  | .storageError _ => "STORAGE_ERROR".data
  | .invalidOptions _ => "INVALID_OPTIONS_ERROR".data

/-- The `message` attribute; ProcessingTimeoutError builds
f"Processing timeout after {timeout} seconds". -/
def error_message : VcError → Token
  | .ffmpegError m _ => m
  | .processingTimeout t => "Processing timeout after ".data ++ (toString t).data ++ " seconds".data
  | .fileValidation m => m
  | .storageError m => m
  | .invalidOptions m => m

/-! ## src/app/services/ffmpeg_service.py : FFmpegService -/

/-- FFmpegService._generate_output_path (lines 67-70):
os.path.join(TEMP_DIR, f"compressed_{uuid4().hex}.{output_format}").
The random hex identifier is a parameter. -/
def generate_output_path (hex : Token) (output_format : Token) : Token :=
  TEMP_DIR ++ '/' :: ("compressed_".data ++ hex ++ '.' :: output_format)

/-- The conditional default codec pair of _build_ffmpeg_command (lines 86-87):
appended unless some arg starts with "-c:v" or equals "-vcodec". -/
def codecDefault (ffmpeg_args : List Token) : List Token :=
  if ffmpeg_args.any (fun a => "-c:v".data.isPrefixOf a || a == "-vcodec".data) then []
  else ["-c:v".data, "libx264".data]

/-- The conditional default quality pair of _build_ffmpeg_command
(lines 89-90): appended unless some arg equals "-crf". -/
def crfDefault (ffmpeg_args : List Token) : List Token :=
  if ffmpeg_args.any (fun a => a == "-crf".data) then [] else ["-crf".data, "23".data]

/-- FFmpegService._build_ffmpeg_command (lines 72-95). -/
def build_ffmpeg_command (input_path output_path : Token)
    (ffmpeg_args : List Token) : List Token :=
  ["ffmpeg".data, "-i".data, input_path] ++ ffmpeg_args ++
    codecDefault ffmpeg_args ++ crfDefault ffmpeg_args ++ ["-y".data, output_path]

/-- The externally determined behaviour of the spawned transcoder process
(subprocess.Popen in _execute_ffmpeg, lines 100-112):
either the executable is missing (FileNotFoundError at spawn), or the
process runs, with: whether it finishes within the timeout, its exit code
and captured stderr text if it does, and `childCount`, the number of
processes spawned by the transcoder itself that are still alive when the
call returns.  Python's `Popen.kill()` signals only the directly spawned
process, so on the timeout path those children survive. -/
inductive SpawnOutcome
  | notFound
  | runs (finishesInTime : Bool) (returncode : Int) (stderrText : Token) (childCount : Nat)
deriving DecidableEq

/-- FFmpegService._execute_ffmpeg (lines 97-124).  The first component is
the outcome (`.ok` or the raised exception); the second is the number of
processes belonging to this invocation still running after the call
returns: zero except on the timeout branch, where `process.kill()`
terminates only the direct child and `childCount` grandchildren remain. -/
def execute_ffmpeg (s : SpawnOutcome) : Except VcError Unit × Nat :=
  match s with
  | .notFound =>
    (.error (.ffmpegError "FFmpeg not found. Please install ffmpeg.".data none), 0)
  | .runs finishesInTime rc stderrText childCount =>
    if finishesInTime then
      if rc ≠ 0 then
        (.error (.ffmpegError ("FFmpeg failed: ".data ++ stderrText) (some rc)), 0)
      else (.ok (), 0)
    else
      (.error (.processingTimeout MAX_PROCESSING_TIME), childCount)

/-! ## FFmpegService._get_video_info (lines 126-168) -/

/-- The `format` section of the JSON document emitted by the inspection
tool, as consumed by _get_video_info: the raw `duration` value (already
read as a number; absent when the key is missing) and the raw
`format_name` value. -/
structure FormatSection where
  duration : Option ℚ
  format_name : Option Token
deriving DecidableEq

/-- The parsed JSON document: optional `format` section and the length of
the `streams` list. -/
structure ProbeJson where
  format : Option FormatSection
  streams : Nat
deriving DecidableEq

/-- The externally determined behaviour of one ffprobe invocation:
`raises e` covers every exception inside the `try` block (missing tool,
the 10-second timeout expiring, unparsable JSON output, a failing
os.path.getsize), with `e` the text of `str(e)`; `exits rc j` covers a
completed run with exit code `rc` whose output parses to `j`. -/
inductive ProbeBehavior
  | raises (emsg : Token)
  | exits (returncode : Int) (parsed : ProbeJson)
deriving DecidableEq

/-- The dictionary returned by _get_video_info: either the one-key
`{"error": msg}` dictionary (duration/format/streams keys absent), or the
four-key information dictionary. -/
inductive VideoInfo
  | err (msg : Token)
  | fields (file_size : Nat) (duration : Option ℚ) (format : Option Token) (streams : Nat)
deriving DecidableEq

/-- The `duration` entry of the returned dictionary, if present. -/
def VideoInfo.durationField : VideoInfo → Option ℚ
  | .err _ => none
  | .fields _ d _ _ => d

/-- The `format` entry of the returned dictionary, if present. -/
def VideoInfo.formatField : VideoInfo → Option Token
  | .err _ => none
  | .fields _ _ f _ => f

/-- The `streams` entry of the returned dictionary, if present. -/
def VideoInfo.streamsField : VideoInfo → Option Nat
  | .err _ => none
  | .fields _ _ _ s => some s

/-- FFmpegService._get_video_info (lines 126-168): every exception is
caught and turned into the `{"error": ...}` dictionary; a nonzero exit
yields `{"error": "Could not get video info"}`; otherwise duration
defaults to `float(0)` and the format name to "unknown" when the
respective key is missing, and both stay `None` when the whole `format`
section is missing. -/
def get_video_info (b : ProbeBehavior) (fileSize : Nat) : VideoInfo :=
  match b with
  | .raises emsg => .err ("Failed to get video info: ".data ++ emsg)
  | .exits rc j =>
    if rc ≠ 0 then .err "Could not get video info".data
    else
      match j.format with
      | none => .fields fileSize none none j.streams
      | some f =>
        .fields fileSize (some (f.duration.getD 0))
          (some (f.format_name.getD "unknown".data)) j.streams

/-- The metadata dictionary built by FFmpegService.compress_video
(lines 56-63); the wall-clock `processing_time` entry is not modelled. -/
structure Metadata where
  input_info : VideoInfo
  output_info : VideoInfo
  ffmpeg_args : List Token
  command : Token
deriving DecidableEq

/-- FFmpegService.compress_video (lines 17-65): validate, generate the
output path, build the command, probe the input, run ffmpeg, probe the
output, and return the output path with the metadata.  The externally
determined behaviours (spawn outcome, the two probe behaviours, the two
file sizes read by the probes, the random hex) are parameters. -/
def service_compress_video (input_path : Token) (ffmpeg_args : List Token)
    (output_format : Token) (hex : Token) (spawn : SpawnOutcome)
    (probeIn probeOut : ProbeBehavior) (inSize outSize : Nat) :
    Except VcError (Token × Metadata) :=
  let v := validate_options ffmpeg_args
  if v.1 = false then .error (.invalidOptions v.2)
  else
    let output_path := generate_output_path hex output_format
    let cmd := build_ffmpeg_command input_path output_path ffmpeg_args
    let input_info := get_video_info probeIn inSize
    match (execute_ffmpeg spawn).1 with
    | .error e => .error e
    | .ok _ =>
      let output_info := get_video_info probeOut outSize
      .ok (output_path, ⟨input_info, output_info, ffmpeg_args, joinTokens cmd⟩)

/-! ## src/app/main.py : compress_video endpoint, temp-file cleanup -/

/-- The externally determined behaviour of one compression request, for
the filesystem model of the endpoint: the spawn outcome, whether the
transcoder wrote its output file before exiting or being killed, and the
storage outcome (`none` = upload succeeded, `some m` = StorageError m). -/
structure RequestBehavior where
  spawn : SpawnOutcome
  createsOutput : Bool
  storage : Option Token
deriving DecidableEq

/-- os.remove inside the `finally` block of main.compress_video
(lines 169-176): remove the path if it exists. -/
def removePath (fs : List Token) (p : Token) : List Token :=
  fs.filter (fun q => !(q == p))

/-- The compress_video endpoint of src/app/main.py (lines 71-176),
tracking the set of temporary files on disk.  `fs0` is the filesystem
before the request; saving the upload adds `input_path`; the transcoder
adds the generated output path when it runs and `createsOutput` holds;
the `finally` block removes `input_file_path` always and
`output_file_path` only when the service call returned (on a service
exception the variable is still None).  Probing is total and does not
touch the modelled state (see `get_video_info`), so it is elided here. -/
def compress_request (fs0 : List Token) (input_path : Token)
    (ffmpeg_args : List Token) (output_format : Token) (hex : Token)
    (b : RequestBehavior) : Except VcError Unit × List Token :=
  let fs1 := input_path :: fs0
  if (validate_options ffmpeg_args).1 = false then
    (.error (.invalidOptions (validate_options ffmpeg_args).2), removePath fs1 input_path)
  else
    let output_path := generate_output_path hex output_format
    let fsRun :=
      match b.spawn with
      | .notFound => fs1
      | .runs _ _ _ _ => if b.createsOutput then output_path :: fs1 else fs1
    match (execute_ffmpeg b.spawn).1 with
    | .error e => (.error e, removePath fsRun input_path)
    | .ok _ =>
      match b.storage with
      | some m =>
        (.error (.storageError m), removePath (removePath fsRun input_path) output_path)
      | none => (.ok (), removePath (removePath fsRun input_path) output_path)

/-! ## Lemmas about the string primitives -/

lemma isPrefixOf_append (p a b : Token) (h : p.isPrefixOf a = true) :
    p.isPrefixOf (a ++ b) = true := by
  induction p generalizing a with
  | nil => simp [List.isPrefixOf]
  | cons q p' ih =>
    cases a with
    | nil => simp [List.isPrefixOf] at h
    | cons x a' =>
      simp only [List.cons_append, List.isPrefixOf, Bool.and_eq_true] at h ⊢
      exact ⟨h.1, ih a' h.2⟩

lemma hasSubstr_nil (s : Token) : hasSubstr [] s = true := by
  cases s <;> simp [hasSubstr, List.isPrefixOf]

lemma hasSubstr_of_isPrefixOf (p s : Token) (h : p.isPrefixOf s = true) :
    hasSubstr p s = true := by
  cases s with
  | nil =>
    cases p with
    | nil => simp [hasSubstr]
    | cons q p' => simp [List.isPrefixOf] at h
  | cons c rest => simp [hasSubstr, h]

lemma hasSubstr_append_left (p a b : Token) (h : hasSubstr p a = true) :
    hasSubstr p (a ++ b) = true := by
  induction a with
  | nil =>
    have hp : p = [] := by
      cases p with
      | nil => rfl
      | cons q p' => simp [hasSubstr, List.isEmpty] at h
    subst hp; exact hasSubstr_nil _
  | cons c a' ih =>
    simp only [hasSubstr, Bool.or_eq_true] at h
    rcases h with h | h
    · have := isPrefixOf_append p (c :: a') b h
      simp only [List.cons_append] at this ⊢
      simp [hasSubstr, this]
    · simp only [List.cons_append]
      simp [hasSubstr, ih h]

lemma hasSubstr_append_right (p a b : Token) (h : hasSubstr p b = true) :
    hasSubstr p (a ++ b) = true := by
  induction a with
  | nil => simpa using h
  | cons c a' ih =>
    simp only [List.cons_append]
    simp [hasSubstr, ih]

lemma hasSubstr_joinTokens_of_mem (p t : Token) (l : List Token)
    (hmem : t ∈ l) (h : hasSubstr p t = true) :
    hasSubstr p (joinTokens l) = true := by
  induction l with
  | nil => cases hmem
  | cons t₀ ts ih =>
    cases ts with
    | nil =>
      rcases List.mem_cons.mp hmem with rfl | habs
      · simpa [joinTokens] using h
      · cases habs
    | cons t₁ ts' =>
      have hjoin : joinTokens (t₀ :: t₁ :: ts') = t₀ ++ ' ' :: joinTokens (t₁ :: ts') := rfl
      rw [hjoin]
      rcases List.mem_cons.mp hmem with rfl | hmem'
      · exact hasSubstr_append_left _ _ _ h
      · have := ih hmem'
        exact hasSubstr_append_right _ _ _ (by simp [hasSubstr, this])

lemma isPrefixOf_append_cons (p : Token) (c : Char) (hc : c ∉ p) (a b : Token) :
    p.isPrefixOf (a ++ c :: b) = p.isPrefixOf a := by
  induction p generalizing a with
  | nil => simp [List.isPrefixOf]
  | cons q p' ih =>
    cases a with
    | nil =>
      have hqc : (q == c) = false := by
        have : q ≠ c := fun h => hc (h ▸ List.mem_cons_self q p')
        simpa using this
      simp [List.isPrefixOf, hqc]
    | cons x a' =>
      have hc' : c ∉ p' := fun h => hc (List.mem_cons_of_mem _ h)
      show ((q == x) && p'.isPrefixOf (a' ++ c :: b)) = ((q == x) && p'.isPrefixOf a')
      rw [ih hc' a']

lemma hasSubstr_append_cons (p : Token) (c : Char) (hc : c ∉ p) (hp : p ≠ [])
    (a b : Token) :
    hasSubstr p (a ++ c :: b) = (hasSubstr p a || hasSubstr p b) := by
  induction a with
  | nil =>
    have h1 : p.isPrefixOf (c :: b) = p.isPrefixOf ([] : Token) :=
      isPrefixOf_append_cons p c hc [] b
    have h2 : p.isPrefixOf ([] : Token) = false := by
      cases p with
      | nil => exact absurd rfl hp
      | cons q p' => rfl
    have h3 : hasSubstr p [] = false := by
      cases p with
      | nil => exact absurd rfl hp
      | cons q p' => rfl
    show (p.isPrefixOf (c :: b) || hasSubstr p b) = (hasSubstr p [] || hasSubstr p b)
    rw [h1, h2, h3]
  | cons x a' ih =>
    show (p.isPrefixOf ((x :: a') ++ c :: b) || hasSubstr p (a' ++ c :: b)) =
      ((p.isPrefixOf (x :: a') || hasSubstr p a') || hasSubstr p b)
    rw [isPrefixOf_append_cons p c hc (x :: a') b, ih, Bool.or_assoc]

lemma hasSubstr_joinTokens_elim (p : Token) (l : List Token)
    (hsp : ' ' ∉ p) (hp : p ≠ []) (h : hasSubstr p (joinTokens l) = true) :
    ∃ t ∈ l, hasSubstr p t = true := by
  induction l with
  | nil =>
    exfalso
    have h3 : hasSubstr p [] = false := by
      cases p with
      | nil => exact absurd rfl hp
      | cons q p' => rfl
    rw [show joinTokens [] = [] from rfl, h3] at h
    exact Bool.false_ne_true h
  | cons t₀ ts ih =>
    cases ts with
    | nil => exact ⟨t₀, List.mem_cons_self _ _, by simpa [joinTokens] using h⟩
    | cons t₁ ts' =>
      rw [show joinTokens (t₀ :: t₁ :: ts') = t₀ ++ ' ' :: joinTokens (t₁ :: ts') from rfl,
        hasSubstr_append_cons p ' ' hsp hp] at h
      simp only [Bool.or_eq_true] at h
      rcases h with h | h
      · exact ⟨t₀, List.mem_cons_self _ _, h⟩
      · obtain ⟨t, ht, hs⟩ := ih h
        exact ⟨t, List.mem_cons_of_mem _ ht, hs⟩

/-! ## Lemmas about validate_options -/

lemma findForbidden_none (s : Token) (ps : List Token)
    (h : findForbidden s ps = none) : ∀ p ∈ ps, hasSubstr p s = false := by
  induction ps with
  | nil => simp
  | cons q qs ih =>
    by_cases hq : hasSubstr q s = true
    · simp [findForbidden, hq] at h
    · have h' : findForbidden s qs = none := by simpa [findForbidden, hq] using h
      intro p hp
      rcases List.mem_cons.mp hp with rfl | hp'
      · exact Bool.eq_false_iff.mpr hq
      · exact ih h' p hp'

lemma findForbidden_some (s : Token) (ps : List Token) (q : Token)
    (h : findForbidden s ps = some q) : q ∈ ps ∧ hasSubstr q s = true := by
  induction ps with
  | nil => simp [findForbidden] at h
  | cons r rs ih =>
    by_cases hr : hasSubstr r s = true
    · have : r = q := by simpa [findForbidden, hr] using h
      exact this ▸ ⟨List.mem_cons_self _ _, hr⟩
    · have h' : findForbidden s rs = some q := by simpa [findForbidden, hr] using h
      obtain ⟨hq, hs⟩ := ih h'
      exact ⟨List.mem_cons_of_mem _ hq, hs⟩

lemma checkTokens_fst (l : List Token) : (checkTokens l).1 = l.all tokenOk := by
  induction l with
  | nil => rfl
  | cons t ts ih =>
    by_cases hd : startsWithDash t = true
    · by_cases ha : t ∈ FFMPEG_ALLOWED_OPTIONS
      · simp [checkTokens, tokenOk, hd, ha, ih]
      · simp [checkTokens, tokenOk, hd, ha]
    · by_cases hg : ∃ c ∈ dangerous_chars, c ∈ t
      · by_cases hs : is_safe_value t = true
        · simp [checkTokens, tokenOk, hd, hg, hs, ih]
        · simp [checkTokens, tokenOk, hd, hg, hs]
      · simp [checkTokens, tokenOk, hd, hg, ih]
        intro _
        push_neg at hg
        exact Or.inl hg

lemma checkTokens_false (l : List Token) (t : Token) (hmem : t ∈ l)
    (hbad : tokenOk t = false) : (checkTokens l).1 = false := by
  rw [checkTokens_fst]
  refine Bool.eq_false_iff.mpr (fun hall => ?_)
  have := List.all_eq_true.mp hall t hmem
  rw [hbad] at this
  exact Bool.false_ne_true this

lemma forbidden_patterns_wf : ∀ p ∈ FFMPEG_FORBIDDEN_PATTERNS, p ≠ [] ∧ ' ' ∉ p := by
  decide

lemma findForbidden_none_of_clean (args : List Token)
    (hclean : ∀ t ∈ args, ∀ p ∈ FFMPEG_FORBIDDEN_PATTERNS, hasSubstr p t = false) :
    findForbidden (joinTokens args) FFMPEG_FORBIDDEN_PATTERNS = none := by
  cases hf : findForbidden (joinTokens args) FFMPEG_FORBIDDEN_PATTERNS with
  | none => rfl
  | some q =>
    exfalso
    obtain ⟨hq, hsub⟩ := findForbidden_some _ _ _ hf
    obtain ⟨hne, hsp⟩ := forbidden_patterns_wf q hq
    obtain ⟨t, ht, hst⟩ := hasSubstr_joinTokens_elim q args hsp hne hsub
    rw [hclean t ht q hq] at hst
    exact Bool.false_ne_true hst

lemma validate_false_of_bad_token (args : List Token) (t : Token)
    (hclean : ∀ u ∈ args, ∀ p ∈ FFMPEG_FORBIDDEN_PATTERNS, hasSubstr p u = false)
    (hmem : t ∈ args) (hbad : tokenOk t = false) :
    (validate_options args).1 = false := by
  cases args with
  | nil => cases hmem
  | cons a as =>
    have hf := findForbidden_none_of_clean _ hclean
    have hck : (checkTokens (a :: as)).1 = false := checkTokens_false _ t hmem hbad
    simpa [validate_options, hf] using hck

lemma validate_true_tokens (args : List Token)
    (h : (validate_options args).1 = true) : ∀ t ∈ args, tokenOk t = true := by
  cases args with
  | nil => simp
  | cons a as =>
    cases hf : findForbidden (joinTokens (a :: as)) FFMPEG_FORBIDDEN_PATTERNS with
    | some q => simp [validate_options, hf] at h
    | none =>
      have h' : (checkTokens (a :: as)).1 = true := by
        simpa [validate_options, hf] using h
      rw [checkTokens_fst] at h'
      exact fun t ht => List.all_eq_true.mp h' t ht

lemma validate_true_no_forbidden (args : List Token)
    (h : (validate_options args).1 = true) :
    ∀ t ∈ args, ∀ p ∈ FFMPEG_FORBIDDEN_PATTERNS, hasSubstr p t = false := by
  cases args with
  | nil => simp
  | cons a as =>
    cases hf : findForbidden (joinTokens (a :: as)) FFMPEG_FORBIDDEN_PATTERNS with
    | some q => simp [validate_options, hf] at h
    | none =>
      intro t ht p hp
      refine Bool.eq_false_iff.mpr (fun hsub => ?_)
      have := hasSubstr_joinTokens_of_mem p t _ ht hsub
      rw [findForbidden_none _ _ hf p hp] at this
      exact Bool.false_ne_true this

/-! ## Claim C1 -/

/-- C1: for every non-empty argument list in which some token contains one
of the fixed forbidden substrings, validate_options rejects, and the
returned reason names the detected forbidden pattern, independent of the
token's position in the list and of the substring's position in the
token. -/
theorem c1_forbidden_substring_rejects (args : List Token) (t p : Token)
    (hmem : t ∈ args) (hp : p ∈ FFMPEG_FORBIDDEN_PATTERNS)
    (hsub : hasSubstr p t = true) :
    (validate_options args).1 = false ∧
    ∃ q ∈ FFMPEG_FORBIDDEN_PATTERNS,
      hasSubstr q (joinTokens args) = true ∧
      (validate_options args).2 = forbiddenMsg q := by
  have hjoin : hasSubstr p (joinTokens args) = true :=
    hasSubstr_joinTokens_of_mem p t args hmem hsub
  cases hf : findForbidden (joinTokens args) FFMPEG_FORBIDDEN_PATTERNS with
  | none =>
    rw [findForbidden_none _ _ hf p hp] at hjoin
    exact absurd hjoin (Bool.false_ne_true)
  | some q =>
    obtain ⟨hq, hsubq⟩ := findForbidden_some _ _ _ hf
    have hne : args.isEmpty = false := by
      cases args with
      | nil => cases hmem
      | cons a as => rfl
    exact ⟨by simp [validate_options, hne, hf],
      q, hq, hsubq, by simp [validate_options, hne, hf]⟩

/-- Witness for C1 at `["-i"]`. -/
theorem c1_witness :
    (validate_options ["-i".data]).1 = false ∧
    ∃ q ∈ FFMPEG_FORBIDDEN_PATTERNS,
      hasSubstr q (joinTokens ["-i".data]) = true ∧
      (validate_options ["-i".data]).2 = forbiddenMsg q :=
  c1_forbidden_substring_rejects ["-i".data] "-i".data "-i".data
    (by decide) (by decide) (by decide)

/-! ## Claim C2 -/

/-- An argument list exercising each of the five safe example values of C2
as a value token. -/
def c2Demo : List Token :=
  ["-crf", "23", "-c:v", "libx264", "-preset", "medium",
   "-s", "1920x1080", "-vf", "scale=1920:1080"].map String.data

/-- C2: the values "23", "libx264", "medium", "1920x1080",
"scale=1920:1080" are accepted as value tokens (the list carrying them
validates), and in any argument list whose tokens are free of forbidden
substrings, every value token (not beginning with '-') that contains a
dangerous character and matches no safe pattern makes validate_options
reject. -/
theorem c2_value_safety :
    validate_options c2Demo = (true, validMsg) ∧
    ∀ args v, (∀ t ∈ args, ∀ p ∈ FFMPEG_FORBIDDEN_PATTERNS, hasSubstr p t = false) →
      v ∈ args → startsWithDash v = false →
      (∃ c ∈ dangerous_chars, c ∈ v) → is_safe_value v = false →
      (validate_options args).1 = false := by
  refine ⟨by decide, ?_⟩
  intro args v hclean hmem hdash hdang hsafe
  refine validate_false_of_bad_token args v hclean hmem ?_
  simp [tokenOk, hdash, hsafe, hdang]

/-- Witness for C2 at the value "a/b" (contains '/', matches no safe
pattern). -/
theorem c2_witness : (validate_options ["a/b".data]).1 = false :=
  c2_value_safety.2 ["a/b".data] "a/b".data (by decide) (by decide) (by decide)
    (by decide) (by decide)

/-! ## Claim C3 -/

/-- C3 counterexample: for ["-threads","4"] the code rejects with reason
"Option not allowed: -threads" (src/app/utils/validators.py line 81), not
"flag not allowed: -threads" as the claim states. -/
theorem c3_counterexample :
    (validate_options ["-threads".data, "4".data]).1 = false ∧
    (validate_options ["-threads".data, "4".data]).2 ≠ "flag not allowed: -threads".data ∧
    (validate_options ["-threads".data, "4".data]).2 = "Option not allowed: -threads".data := by
  decide

/-- C3 (amended): for every argument list whose tokens are free of
forbidden substrings, if some token begins with '-' and is not an exact
member of the fixed flag allowlist, validate_options rejects; the
rejection reason for a disallowed flag reads "Option not allowed: <flag>",
and in particular ["-threads","4"] is rejected with reason
"Option not allowed: -threads". -/
theorem c3_unknown_flag_rejected (args : List Token) (f : Token)
    (hclean : ∀ t ∈ args, ∀ p ∈ FFMPEG_FORBIDDEN_PATTERNS, hasSubstr p t = false)
    (hmem : f ∈ args) (hdash : startsWithDash f = true)
    (hnot : f ∉ FFMPEG_ALLOWED_OPTIONS) :
    (validate_options args).1 = false ∧
    validate_options ["-threads".data, "4".data] =
      (false, optionNotAllowedMsg "-threads".data) := by
  refine ⟨validate_false_of_bad_token args f hclean hmem ?_, by decide⟩
  simp [tokenOk, hdash, hnot]

/-- Witness for C3's amended theorem at ["-threads","4"]. -/
theorem c3_witness :
    (validate_options ["-threads".data, "4".data]).1 = false ∧
    validate_options ["-threads".data, "4".data] =
      (false, optionNotAllowedMsg "-threads".data) :=
  c3_unknown_flag_rejected ["-threads".data, "4".data] "-threads".data
    (by decide) (by decide) (by decide) (by decide)

/-! ## Claim C4 -/

/-- C4 counterexample: when the transcoder times out having itself spawned
one child process, `process.kill()` (src/app/services/ffmpeg_service.py
line 111) terminates only the directly spawned process; the child survives
the call, so one process is still running after the runner returns,
contrary to the claim that no process is left running or orphaned. -/
theorem c4_counterexample :
    execute_ffmpeg (.runs false 0 [] 1) =
      (.error (.processingTimeout 60), 1) ∧ (1 : Nat) ≠ 0 :=
  ⟨rfl, by decide⟩

/-- C4 (amended): when the spawned transcoder has not finished within
MAX_PROCESSING_TIME (60 seconds), the runner kills the directly spawned
process and raises ProcessingTimeoutError (code "PROCESSING_TIMEOUT")
carrying the timeout value; processes spawned by the transcoder itself are
not terminated and remain running after the call returns. -/
theorem c4_timeout_kills_direct_process (rc : Int) (st : Token) (children : Nat) :
    execute_ffmpeg (.runs false rc st children) =
      (.error (.processingTimeout MAX_PROCESSING_TIME), children) ∧
    error_code (.processingTimeout MAX_PROCESSING_TIME) = "PROCESSING_TIMEOUT".data ∧
    error_message (.processingTimeout MAX_PROCESSING_TIME) =
      "Processing timeout after 60 seconds".data :=
  ⟨rfl, by decide, by decide⟩

/-! ## Claim C8 -/

/-- C8 counterexample: the missing-executable error and the nonzero-exit
error are the same exception class FFmpegError with the same caller-visible
code "FFMPEG_ERROR" (src/app/utils/exceptions.py lines 8-12,
src/app/services/ffmpeg_service.py lines 114-120), contrary to the claim
that they are distinct error kinds with distinct caller-visible codes. -/
theorem c8_counterexample :
    (execute_ffmpeg .notFound).1 =
      .error (.ffmpegError "FFmpeg not found. Please install ffmpeg.".data none) ∧
    (execute_ffmpeg (.runs true 1 "boom".data 0)).1 =
      .error (.ffmpegError "FFmpeg failed: boom".data (some 1)) ∧
    error_code (.ffmpegError "FFmpeg not found. Please install ffmpeg.".data none) =
      error_code (.ffmpegError "FFmpeg failed: boom".data (some 1)) :=
  ⟨rfl, rfl, rfl⟩

/-- C8 (amended): a nonzero transcoder exit raises FFmpegError carrying the
exit code and the captured stderr text; a missing executable raises
FFmpegError with no exit code and a fixed message — the same error kind
with the same caller-visible code "FFMPEG_ERROR", distinguished only by
the message and the absent return code. -/
theorem c8_execution_errors (rc : Int) (st : Token) (children : Nat) (h : rc ≠ 0) :
    (execute_ffmpeg (.runs true rc st children)).1 =
      .error (.ffmpegError ("FFmpeg failed: ".data ++ st) (some rc)) ∧
    (execute_ffmpeg .notFound).1 =
      .error (.ffmpegError "FFmpeg not found. Please install ffmpeg.".data none) ∧
    error_code (.ffmpegError ("FFmpeg failed: ".data ++ st) (some rc)) =
      error_code (.ffmpegError "FFmpeg not found. Please install ffmpeg.".data none) := by
  refine ⟨?_, rfl, rfl⟩
  simp [execute_ffmpeg, h]

/-- Witness for C8's amended theorem at exit code 1 with stderr "boom". -/
theorem c8_witness :
    (execute_ffmpeg (.runs true 1 "boom".data 0)).1 =
      .error (.ffmpegError ("FFmpeg failed: ".data ++ "boom".data) (some 1)) ∧
    (execute_ffmpeg .notFound).1 =
      .error (.ffmpegError "FFmpeg not found. Please install ffmpeg.".data none) ∧
    error_code (.ffmpegError ("FFmpeg failed: ".data ++ "boom".data) (some 1)) =
      error_code (.ffmpegError "FFmpeg not found. Please install ffmpeg.".data none) :=
  c8_execution_errors 1 "boom".data 0 (by decide)

/-! ## Claim C9 -/

/-- C9: the probe is a total function — every failure of the inspection
step (any raised exception: missing tool, the 10-second timeout, which is
shorter than the 60-second processing timeout, unparsable output; or a
nonzero exit) yields a record whose duration, format and stream-count
fields are all absent — and a compression whose transcoder succeeds
completes with exactly those records in its metadata, whatever the two
probe behaviours are. -/
theorem c9_probe_nonfatal :
    (∀ emsg fileSize,
      (get_video_info (.raises emsg) fileSize).durationField = none ∧
      (get_video_info (.raises emsg) fileSize).formatField = none ∧
      (get_video_info (.raises emsg) fileSize).streamsField = none) ∧
    (∀ rc j fileSize, rc ≠ 0 →
      (get_video_info (.exits rc j) fileSize).durationField = none ∧
      (get_video_info (.exits rc j) fileSize).formatField = none ∧
      (get_video_info (.exits rc j) fileSize).streamsField = none) ∧
    PROBE_TIMEOUT < MAX_PROCESSING_TIME ∧
    (∀ input_path args output_format hex probeIn probeOut inSize outSize st children,
      (validate_options args).1 = true →
      service_compress_video input_path args output_format hex
        (.runs true 0 st children) probeIn probeOut inSize outSize =
        .ok (generate_output_path hex output_format,
          ⟨get_video_info probeIn inSize, get_video_info probeOut outSize, args,
           joinTokens (build_ffmpeg_command input_path
             (generate_output_path hex output_format) args)⟩)) := by
  refine ⟨fun emsg fs => ⟨rfl, rfl, rfl⟩, ?_, by decide, ?_⟩
  · intro rc j fs h
    refine ⟨?_, ?_, ?_⟩ <;>
      simp [get_video_info, h, VideoInfo.durationField, VideoInfo.formatField,
        VideoInfo.streamsField]
  · intro input args fmt hex pIn pOut s1 s2 st ch hval
    simp [service_compress_video, hval, execute_ffmpeg]

/-- Witness for C9 at a failing probe (exit code 1) and a request whose
probes both raise. -/
theorem c9_witness :
    ((get_video_info (.exits 1 ⟨none, 0⟩) 0).durationField = none ∧
     (get_video_info (.exits 1 ⟨none, 0⟩) 0).formatField = none ∧
     (get_video_info (.exits 1 ⟨none, 0⟩) 0).streamsField = none) ∧
    service_compress_video "/tmp/in.mp4".data [] "mp4".data "abc".data
      (.runs true 0 [] 0) (.raises []) (.raises []) 0 0 =
      .ok (generate_output_path "abc".data "mp4".data,
        ⟨get_video_info (.raises []) 0, get_video_info (.raises []) 0, [],
         joinTokens (build_ffmpeg_command "/tmp/in.mp4".data
           (generate_output_path "abc".data "mp4".data) [])⟩) :=
  ⟨c9_probe_nonfatal.2.1 1 ⟨none, 0⟩ 0 (by decide),
   c9_probe_nonfatal.2.2.2 "/tmp/in.mp4".data [] "mp4".data "abc".data
     (.raises []) (.raises []) 0 0 [] 0 (by decide)⟩

/-! ## Claim C10 -/

/-- C10: when the inspection tool exits successfully and the parsed output
contains a 'format' section lacking a 'duration' entry, the returned
record's duration field is present with value 0 (float(0) = 0.0), and the
format name defaults to "unknown" when missing — not an absent field. -/
theorem c10_duration_default (fileSize streams : Nat) (fn : Option Token) :
    get_video_info (.exits 0 ⟨some ⟨none, fn⟩, streams⟩) fileSize =
      .fields fileSize (some 0) (some (fn.getD "unknown".data)) streams ∧
    (get_video_info (.exits 0 ⟨some ⟨none, fn⟩, streams⟩) fileSize).durationField =
      some 0 ∧
    (get_video_info (.exits 0 ⟨some ⟨none, none⟩, streams⟩) fileSize).formatField =
      some "unknown".data := by
  refine ⟨?_, ?_, ?_⟩ <;>
    simp [get_video_info, VideoInfo.durationField, VideoInfo.formatField]

/-! ## Claim C7 -/

/-- C7: at the failing input — upload saved as /tmp/in.mp4, empty argument
list, output format "mp4", transcoder timing out after having created its
output file — the endpoint surfaces ProcessingTimeoutError and the finally
block (src/app/main.py lines 169-176) removes the input copy, but the
generated output artifact /tmp/compressed_abc.mp4 remains on disk:
`output_file_path` is still None in main.compress_video when the service
raises, so the cleanup loop never sees the path the service generated. -/
theorem c7_output_artifact_leak :
    compress_request [] "/tmp/in.mp4".data [] "mp4".data "abc".data
      ⟨.runs false 0 [] 0, true, none⟩ =
      (.error (.processingTimeout 60), ["/tmp/compressed_abc.mp4".data]) ∧
    "/tmp/compressed_abc.mp4".data ∈
      (compress_request [] "/tmp/in.mp4".data [] "mp4".data "abc".data
        ⟨.runs false 0 [] 0, true, none⟩).2 ∧
    "/tmp/in.mp4".data ∉
      (compress_request [] "/tmp/in.mp4".data [] "mp4".data "abc".data
        ⟨.runs false 0 [] 0, true, none⟩).2 :=
  ⟨rfl, by decide, by decide⟩

/-! ## Lemmas for C5 and C6: accepted tokens contain no slash and are not "-i" -/

lemma take_of_isPrefixOf (p l : Token) (h : p.isPrefixOf l = true) :
    l.take p.length = p := by
  induction p generalizing l with
  | nil => simp
  | cons q p' ih =>
    cases l with
    | nil => simp [List.isPrefixOf] at h
    | cons x l' =>
      simp only [List.isPrefixOf, Bool.and_eq_true, beq_iff_eq] at h
      simp [List.take, ih l' h.2, h.1]

lemma safe_value_no_slash (v : Token) (h : is_safe_value v = true) : '/' ∉ v := by
  intro hc
  simp only [is_safe_value, Bool.or_eq_true] at h
  rcases h with (((h | h) | h) | h) | h
  · simp only [natDigits, Bool.and_eq_true] at h
    have := List.all_eq_true.mp h.2 '/' hc
    simp at this
  · have hv : v ∈ CODEC_NAMES := by simpa using h
    have hall : ∀ u ∈ CODEC_NAMES, '/' ∉ u := by decide
    exact hall v hv hc
  · have hv : v ∈ PRESET_NAMES := by simpa using h
    have hall : ∀ u ∈ PRESET_NAMES, '/' ∉ u := by decide
    exact hall v hv hc
  · unfold resolutionPattern at h
    split at h
    next x d2 heq =>
      simp only [Bool.and_eq_true, beq_iff_eq] at h
      obtain ⟨⟨hx, _⟩, hd2⟩ := h
      rw [← List.takeWhile_append_dropWhile (p := fun c => c.isDigit) (l := v), heq]
        at hc
      rcases List.mem_append.mp hc with hc | hc
      · have := List.mem_takeWhile_imp hc
        simp at this
      · rcases List.mem_cons.mp hc with hx2 | hc
        · rw [hx] at hx2
          exact absurd hx2 (by decide)
        · simp only [natDigits, Bool.and_eq_true] at hd2
          have := List.all_eq_true.mp hd2.2 '/' hc
          simp at this
    next => exact absurd h (by simp)
  · simp only [scalePattern, Bool.and_eq_true] at h
    obtain ⟨hpre, hrest⟩ := h
    have htake : v.take ("scale=".data).length = "scale=".data :=
      take_of_isPrefixOf _ _ hpre
    rw [← List.take_append_drop 6 v] at hc
    rcases List.mem_append.mp hc with hc | hc
    · rw [show (6 : Nat) = ("scale=".data).length from rfl, htake] at hc
      exact absurd hc (by decide)
    · split at hrest
      next x d2 heq =>
        simp only [Bool.and_eq_true, beq_iff_eq] at hrest
        obtain ⟨⟨hx, _⟩, hd2⟩ := hrest
        rw [← List.takeWhile_append_dropWhile (p := fun c => c.isDigit) (l := v.drop 6),
          heq] at hc
        rcases List.mem_append.mp hc with hc | hc
        · have := List.mem_takeWhile_imp hc
          simp at this
        · rcases List.mem_cons.mp hc with hx2 | hc
          · rw [hx] at hx2
            exact absurd hx2 (by decide)
          · simp only [natDigits, Bool.and_eq_true] at hd2
            have := List.all_eq_true.mp hd2.2 '/' hc
            simp at this
      next => exact absurd hrest (by simp)

lemma validated_token_no_slash (args : List Token)
    (hval : (validate_options args).1 = true) (t : Token) (ht : t ∈ args) :
    '/' ∉ t := by
  intro hc
  have hok := validate_true_tokens args hval t ht
  by_cases hd : startsWithDash t = true
  · have hmem : t ∈ FFMPEG_ALLOWED_OPTIONS := by simpa [tokenOk, hd] using hok
    have hall : ∀ u ∈ FFMPEG_ALLOWED_OPTIONS, '/' ∉ u := by decide
    exact hall t hmem hc
  · have hok' : (!(dangerous_chars.any fun c => t.contains c) || is_safe_value t) = true := by
      simpa [tokenOk, hd] using hok
    have hany : (dangerous_chars.any fun c => t.contains c) = true := by
      refine List.any_eq_true.mpr ⟨'/', by decide, ?_⟩
      simpa using hc
    rw [hany] at hok'
    simp only [Bool.not_true, Bool.false_or] at hok'
    exact safe_value_no_slash t hok' hc

lemma validated_token_ne_dash_i (args : List Token)
    (hval : (validate_options args).1 = true) (t : Token) (ht : t ∈ args) :
    t ≠ "-i".data := by
  intro he
  have := validate_true_no_forbidden args hval t ht "-i".data (by decide)
  rw [he] at this
  exact absurd this (by decide)

lemma slash_mem_output (hex fmt : Token) : '/' ∈ generate_output_path hex fmt :=
  List.mem_append.mpr (Or.inl (by decide))

lemma count_eq_zero_of_forall (a : Token) (l : List Token) (h : ∀ b ∈ l, b ≠ a) :
    l.count a = 0 :=
  List.count_eq_zero.mpr (fun hm => h a hm rfl)

/-! ## Claim C5 -/

/-- C5: for every argument list accepted by validate_options, the
assembled command contains exactly one "-i" token, immediately followed by
the orchestrator-chosen input path; the generated output path is the final
element and occurs exactly once; neither path can come from caller tokens
(the input path names a saved temp file, so it contains '/', while no
accepted token contains '/' or equals "-i").  In particular for rawArgs =
[] and outputFormat = "mp4" the empty list validates, the codec and
quality defaults are injected, and the command has exactly one "-i" and
one output path. -/
theorem c5_single_input_output (args : List Token) (input_path hex fmt : Token)
    (hval : (validate_options args).1 = true)
    (hin : '/' ∈ input_path)
    (hneq : input_path ≠ generate_output_path hex fmt) :
    (build_ffmpeg_command input_path (generate_output_path hex fmt) args).count
      "-i".data = 1 ∧
    (build_ffmpeg_command input_path (generate_output_path hex fmt) args).count
      (generate_output_path hex fmt) = 1 ∧
    (∃ rest, build_ffmpeg_command input_path (generate_output_path hex fmt) args =
      "ffmpeg".data :: "-i".data :: input_path :: rest) ∧
    (∃ front, build_ffmpeg_command input_path (generate_output_path hex fmt) args =
      front ++ [generate_output_path hex fmt]) ∧
    generate_output_path hex fmt ∉ args ∧ input_path ∉ args ∧
    validate_options [] = (true, noOptionsMsg) ∧
    build_ffmpeg_command "/tmp/in.mp4".data
        (generate_output_path "abc".data "mp4".data) [] =
      ["ffmpeg".data, "-i".data, "/tmp/in.mp4".data, "-c:v".data, "libx264".data,
       "-crf".data, "23".data, "-y".data, "/tmp/compressed_abc.mp4".data] := by
  set out := generate_output_path hex fmt with hout
  have hslash_out : '/' ∈ out := slash_mem_output hex fmt
  have hargs_noslash : ∀ t ∈ args, '/' ∉ t := validated_token_no_slash args hval
  have hne_i : ∀ t ∈ args, t ≠ "-i".data := validated_token_ne_dash_i args hval
  have hout_notin : out ∉ args := fun hm => hargs_noslash out hm hslash_out
  have hin_notin : input_path ∉ args := fun hm => hargs_noslash input_path hm hin
  have hinp_ne_i : input_path ≠ "-i".data := fun e => by
    rw [e] at hin; exact absurd hin (by decide)
  have hout_ne_i : out ≠ "-i".data := fun e => by
    rw [e] at hslash_out; exact absurd hslash_out (by decide)
  have hcount_args_i : args.count "-i".data = 0 := count_eq_zero_of_forall _ _ hne_i
  have hcount_args_out : args.count out = 0 :=
    count_eq_zero_of_forall _ _ (fun b hb e => hargs_noslash b hb (e ▸ hslash_out))
  have hcd_i : (codecDefault args).count "-i".data = 0 := by
    unfold codecDefault; split
    · exact List.count_nil _
    · decide
  have hcf_i : (crfDefault args).count "-i".data = 0 := by
    unfold crfDefault; split
    · exact List.count_nil _
    · decide
  have hcd_out : (codecDefault args).count out = 0 := by
    unfold codecDefault; split
    · exact List.count_nil _
    · refine count_eq_zero_of_forall _ _ (fun b hb e => ?_)
      have hnos : ∀ u ∈ ["-c:v".data, "libx264".data], '/' ∉ u := by decide
      exact hnos b hb (e ▸ hslash_out)
  have hcf_out : (crfDefault args).count out = 0 := by
    unfold crfDefault; split
    · exact List.count_nil _
    · refine count_eq_zero_of_forall _ _ (fun b hb e => ?_)
      have hnos : ∀ u ∈ ["-crf".data, "23".data], '/' ∉ u := by decide
      exact hnos b hb (e ▸ hslash_out)
  have e1 : ("ffmpeg".data == "-i".data) = false := by decide
  have e2 : ("-i".data == "-i".data) = true := by decide
  have e3 : (input_path == "-i".data) = false := beq_eq_false_iff_ne.mpr hinp_ne_i
  have e4 : ("-y".data == "-i".data) = false := by decide
  have e5 : (out == "-i".data) = false := beq_eq_false_iff_ne.mpr hout_ne_i
  have f1 : ("ffmpeg".data == out) = false := beq_eq_false_iff_ne.mpr
    (fun e => by rw [← e] at hslash_out; exact absurd hslash_out (by decide))
  have f2 : ("-i".data == out) = false := beq_eq_false_iff_ne.mpr
    (fun e => by rw [← e] at hslash_out; exact absurd hslash_out (by decide))
  have f3 : (input_path == out) = false := beq_eq_false_iff_ne.mpr hneq
  have f4 : ("-y".data == out) = false := beq_eq_false_iff_ne.mpr
    (fun e => by rw [← e] at hslash_out; exact absurd hslash_out (by decide))
  have f5 : (out == out) = true := beq_self_eq_true out
  refine ⟨?_, ?_, ?_, ?_, hout_notin, hin_notin, by decide, by decide⟩
  · simp [build_ffmpeg_command, List.count_append, List.count_cons, List.count_nil,
      e1, e2, e3, e4, e5, hcount_args_i, hcd_i, hcf_i]
  · simp [build_ffmpeg_command, List.count_append, List.count_cons, List.count_nil,
      f1, f2, f3, f4, f5, hcount_args_out, hcd_out, hcf_out]
  · exact ⟨args ++ (codecDefault args ++ (crfDefault args ++ ["-y".data, out])),
      by simp [build_ffmpeg_command, List.append_assoc]⟩
  · exact ⟨["ffmpeg".data, "-i".data, input_path] ++
      (args ++ (codecDefault args ++ (crfDefault args ++ ["-y".data]))),
      by simp [build_ffmpeg_command, List.append_assoc]⟩

/-- Witness for C5 at rawArgs = [], input "/tmp/in.mp4", hex "abc",
format "mp4". -/
theorem c5_witness :
    (build_ffmpeg_command "/tmp/in.mp4".data
      (generate_output_path "abc".data "mp4".data) []).count "-i".data = 1 ∧
    (build_ffmpeg_command "/tmp/in.mp4".data
      (generate_output_path "abc".data "mp4".data) []).count
      (generate_output_path "abc".data "mp4".data) = 1 ∧
    (∃ rest, build_ffmpeg_command "/tmp/in.mp4".data
      (generate_output_path "abc".data "mp4".data) [] =
      "ffmpeg".data :: "-i".data :: "/tmp/in.mp4".data :: rest) ∧
    (∃ front, build_ffmpeg_command "/tmp/in.mp4".data
      (generate_output_path "abc".data "mp4".data) [] =
      front ++ [generate_output_path "abc".data "mp4".data]) ∧
    generate_output_path "abc".data "mp4".data ∉ ([] : List Token) ∧
    "/tmp/in.mp4".data ∉ ([] : List Token) ∧
    validate_options [] = (true, noOptionsMsg) ∧
    build_ffmpeg_command "/tmp/in.mp4".data
        (generate_output_path "abc".data "mp4".data) [] =
      ["ffmpeg".data, "-i".data, "/tmp/in.mp4".data, "-c:v".data, "libx264".data,
       "-crf".data, "23".data, "-y".data, "/tmp/compressed_abc.mp4".data] :=
  c5_single_input_output [] "/tmp/in.mp4".data "abc".data "mp4".data
    (by decide) (by decide) (by decide)

/-! ## Claim C6 -/

lemma startsWithDash_of_cv (a : Token) (hpre : "-c:v".data.isPrefixOf a = true) :
    startsWithDash a = true := by
  cases a with
  | nil => exact absurd hpre (by decide)
  | cons x a' =>
    have hstep : (('-' == x) && "c:v".data.isPrefixOf a') = true := hpre
    simp only [Bool.and_eq_true] at hstep
    obtain ⟨h1, _⟩ := hstep
    have hx : '-' = x := beq_iff_eq.mp h1
    subst hx
    rfl

/-- On tokens of a validated list, the source's prefix test
`arg.startswith('-c:v')` (src/app/services/ffmpeg_service.py line 86)
holds exactly for the token "-c:v" itself: a token starting with "-c:v"
starts with '-', hence must be allowlisted, and "-c:v" is the only
allowlisted flag with that prefix. -/
lemma validated_cv_exact (args : List Token) (hval : (validate_options args).1 = true)
    (a : Token) (ha : a ∈ args) (hpre : "-c:v".data.isPrefixOf a = true) :
    a = "-c:v".data := by
  have hdash : startsWithDash a = true := startsWithDash_of_cv a hpre
  have hok := validate_true_tokens args hval a ha
  have hmem : a ∈ FFMPEG_ALLOWED_OPTIONS := by simpa [tokenOk, hdash] using hok
  have hkey : ∀ u ∈ FFMPEG_ALLOWED_OPTIONS,
      "-c:v".data.isPrefixOf u = true → u = "-c:v".data := by decide
  exact hkey a hmem hpre

/-- On validated lists, the default-codec condition reduces to exact
membership of "-c:v" or "-vcodec". -/
lemma codecDefault_validated (args : List Token)
    (hval : (validate_options args).1 = true) :
    codecDefault args =
      if "-c:v".data ∈ args ∨ "-vcodec".data ∈ args then []
      else ["-c:v".data, "libx264".data] := by
  unfold codecDefault
  by_cases hm : "-c:v".data ∈ args ∨ "-vcodec".data ∈ args
  · have hany : (args.any fun a => "-c:v".data.isPrefixOf a || a == "-vcodec".data)
        = true := by
      rcases hm with hm | hm
      · exact List.any_eq_true.mpr ⟨_, hm, by decide⟩
      · exact List.any_eq_true.mpr ⟨_, hm, by decide⟩
    simp [hany, hm]
  · have hany : (args.any fun a => "-c:v".data.isPrefixOf a || a == "-vcodec".data)
        = false := by
      refine Bool.eq_false_iff.mpr (fun htrue => hm ?_)
      obtain ⟨a, ha, hpa⟩ := List.any_eq_true.mp htrue
      simp only [Bool.or_eq_true] at hpa
      rcases hpa with hpre | hvc
      · exact Or.inl (validated_cv_exact args hval a ha hpre ▸ ha)
      · refine Or.inr ?_
        have hvc' : a = "-vcodec".data := beq_iff_eq.mp hvc
        exact hvc' ▸ ha
    simp [hany, hm]

/-- The default-quality condition is an exact membership test already. -/
lemma crfDefault_spec (args : List Token) :
    crfDefault args = if "-crf".data ∈ args then [] else ["-crf".data, "23".data] := by
  unfold crfDefault
  by_cases hm : "-crf".data ∈ args
  · have hany : (args.any fun a => a == "-crf".data) = true :=
      List.any_eq_true.mpr ⟨_, hm, by simp⟩
    simp [hany, hm]
  · have hany : (args.any fun a => a == "-crf".data) = false := by
      refine Bool.eq_false_iff.mpr (fun htrue => hm ?_)
      obtain ⟨a, ha, hpa⟩ := List.any_eq_true.mp htrue
      have hpa' : a = "-crf".data := beq_iff_eq.mp hpa
      exact hpa' ▸ ha
    simp [hany, hm]

/-- Scenario A's argument list. -/
def scenarioA : List Token := ["-c:v", "libx264", "-crf", "23"].map String.data

/-- C6: command assembly is a deterministic pure function of the input
path, output path and validated argument list; on a validated list the
default codec pair is appended iff neither "-c:v" nor "-vcodec" occurs as
a token (exact match — on validated tokens the source's prefix test
coincides with it), the default quality pair is appended iff "-crf" does
not occur, and neither default is ever duplicated (each appears in the
assembly exactly where the closed form puts it).  Scenario A:
["-c:v","libx264","-crf","23"] validates unchanged and no defaults are
injected. -/
theorem c6_deterministic_defaults (args : List Token) (input_path output_path : Token)
    (hval : (validate_options args).1 = true) :
    build_ffmpeg_command input_path output_path args =
      ["ffmpeg".data, "-i".data, input_path] ++ args ++
        (if "-c:v".data ∈ args ∨ "-vcodec".data ∈ args then []
         else ["-c:v".data, "libx264".data]) ++
        (if "-crf".data ∈ args then [] else ["-crf".data, "23".data]) ++
        ["-y".data, output_path] ∧
    (∀ i2 o2 a2, i2 = input_path → o2 = output_path → a2 = args →
      build_ffmpeg_command i2 o2 a2 = build_ffmpeg_command input_path output_path args) ∧
    validate_options scenarioA = (true, validMsg) ∧
    build_ffmpeg_command input_path output_path scenarioA =
      ["ffmpeg".data, "-i".data, input_path] ++ scenarioA ++ ["-y".data, output_path] := by
  refine ⟨?_, ?_, by decide, ?_⟩
  · unfold build_ffmpeg_command
    rw [codecDefault_validated args hval, crfDefault_spec args]
  · intro i2 o2 a2 h1 h2 h3
    rw [h1, h2, h3]
  · have h1 : codecDefault scenarioA = [] := by decide
    have h2 : crfDefault scenarioA = [] := by decide
    unfold build_ffmpeg_command
    rw [h1, h2]
    simp

/-- Witness for C6 at Scenario A with concrete paths. -/
theorem c6_witness :
    build_ffmpeg_command "/tmp/in.mp4".data "/tmp/out.mp4".data scenarioA =
      ["ffmpeg".data, "-i".data, "/tmp/in.mp4".data] ++ scenarioA ++
        (if "-c:v".data ∈ scenarioA ∨ "-vcodec".data ∈ scenarioA then []
         else ["-c:v".data, "libx264".data]) ++
        (if "-crf".data ∈ scenarioA then [] else ["-crf".data, "23".data]) ++
        ["-y".data, "/tmp/out.mp4".data] ∧
    (∀ i2 o2 a2, i2 = "/tmp/in.mp4".data → o2 = "/tmp/out.mp4".data → a2 = scenarioA →
      build_ffmpeg_command i2 o2 a2 =
        build_ffmpeg_command "/tmp/in.mp4".data "/tmp/out.mp4".data scenarioA) ∧
    validate_options scenarioA = (true, validMsg) ∧
    build_ffmpeg_command "/tmp/in.mp4".data "/tmp/out.mp4".data scenarioA =
      ["ffmpeg".data, "-i".data, "/tmp/in.mp4".data] ++ scenarioA ++
        ["-y".data, "/tmp/out.mp4".data] :=
  c6_deterministic_defaults scenarioA "/tmp/in.mp4".data "/tmp/out.mp4".data (by decide)

end VideoCompression
